import Mathlib

/-!
# BudgetWise bank-statement reconciliation: a verified shallow embedding

This file embeds the reconciliation core of the BudgetWise frontend
(`src/frontend/src/components/TransactionList.tsx`): the CSV ingestor
(`parseCSV`), the date normalizer (`formatDate`), the transaction matcher
(`compareTransactions`) and the report generator (`generateReport`), and
proves properties of the embedding.

Modelling conventions:
* JavaScript strings are modelled as `List Char` (`Str`).  The JS string
  operations used by the source (`split` on a one-character delimiter,
  `trim`, `toLowerCase`, `includes`, `replace`) are re-implemented
  structurally so that concrete inputs evaluate inside the kernel.
  `toLowerCase` is modelled for ASCII (all header synonyms compared
  against are ASCII), `trim` for the ASCII whitespace characters.
* JS numbers are modelled as exact decimals `Dec` (an integer mantissa
  with a power-of-ten scale, denoting `num / 10 ^ scale : ℚ`), matching
  the exact-arithmetic reading of the specification.  The matcher's
  `Math.abs(x - y) < 0.01` test is implemented on `Dec` by
  cross-multiplication and proved equivalent to the rational statement
  `|x - y| < 1/100` (`Dec.diffLtCent_iff`).  `NaN` (an unparsable
  amount) is represented by `Option.none` from the number parser.
* Object identity of bank records (the source removes a found record
  with reference equality `t !== matchingBankTx`, and `find` over an
  array of distinct objects returns one specific element) is modelled by
  pairing every bank record with its position: the matcher works on
  `List (ℕ × BankTransaction)` obtained from `List.enum`.
-/

set_option maxRecDepth 4000

namespace BudgetWise

/-- Text, modelled as a list of characters. -/
abbrev Str := List Char

instance {ε α : Type} [DecidableEq ε] [DecidableEq α] : DecidableEq (Except ε α) := fun x y =>
  match x, y with
  | .ok a, .ok b => if h : a = b then isTrue (by rw [h]) else isFalse (by simp [h])
  | .error a, .error b => if h : a = b then isTrue (by rw [h]) else isFalse (by simp [h])
  | .ok _, .error _ => isFalse (by simp)
  | .error _, .ok _ => isFalse (by simp)

/-- ASCII whitespace test used by the model of JS `trim`. -/
def isWSChar (c : Char) : Bool :=
  c == ' ' || c == '\t' || c == '\n' || c == '\r'

/-- Model of JS `String.prototype.trim` (ASCII whitespace). -/
def trimStr (s : Str) : Str :=
  ((s.dropWhile isWSChar).reverse.dropWhile isWSChar).reverse

/-- Model of JS `String.prototype.split` with a one-character separator
(the source only ever splits on `"\n"`, `";"`, `"\t"`, `","`).
Like in JS, splitting the empty string yields `[""]`. -/
def splitChar (d : Char) : Str → List Str
  | [] => [[]]
  | c :: rest =>
    let r := splitChar d rest
    if c == d then [] :: r
    else
      match r with
      | [] => [[c]]
      | s :: ss => (c :: s) :: ss

/-- Model of JS `String.prototype.includes`. -/
def strContains (s pat : Str) : Bool :=
  match s with
  | [] => pat.isEmpty
  | c :: rest => List.isPrefixOf pat (c :: rest) || strContains rest pat

/-- Model of JS `String.prototype.toLowerCase` (ASCII; every synonym the
header detection compares against is ASCII). -/
def lowerStr (s : Str) : Str := s.map Char.toLower

/-- Model of JS `.replace(/"/g, "")`: remove every quote character. -/
def stripQuotes (s : Str) : Str := s.filter (fun c => !(c == '"'))

/-- Model of JS `.replace(",", ".")`: replace only the first occurrence. -/
def replaceFirstChar (a b : Char) : Str → Str
  | [] => []
  | c :: rest => if c == a then b :: rest else c :: replaceFirstChar a b rest

/-- Numeric value of a digit string (most significant first). -/
def digitsVal (ds : Str) : ℕ :=
  ds.foldl (fun n c => 10 * n + (c.toNat - 48)) 0

/-- Exact decimal number `num / 10 ^ scale`, the model of the JS floating
amounts under the specification's exact-arithmetic reading. -/
structure Dec where
  num : ℤ
  scale : ℕ
deriving DecidableEq, Repr

/-- The rational value denoted by a `Dec`. -/
def Dec.toRat (d : Dec) : ℚ := (d.num : ℚ) / 10 ^ d.scale

/-- Model of JS `Math.abs` on exact decimals. -/
def Dec.absVal (d : Dec) : Dec := ⟨|d.num|, d.scale⟩

/-- Model of the JS test `x > 0`. -/
def Dec.isPos (d : Dec) : Bool := decide (0 < d.num)

/-- Model of the matcher's test `Math.abs(a - b) < 0.01`, computed by
cross-multiplication (no normalization needed); proved equivalent to the
rational statement in `Dec.diffLtCent_iff`. -/
def Dec.diffLtCent (a b : Dec) : Bool :=
  decide (100 * |a.num * 10 ^ b.scale - b.num * 10 ^ a.scale| < 10 ^ (a.scale + b.scale))

theorem Dec.toRat_eq (d : Dec) : d.toRat = (d.num : ℚ) / 10 ^ d.scale := rfl

theorem Dec.sub_toRat (a b : Dec) :
    a.toRat - b.toRat =
      ((a.num * 10 ^ b.scale - b.num * 10 ^ a.scale : ℤ) : ℚ) / 10 ^ (a.scale + b.scale) := by
  rw [Dec.toRat, Dec.toRat, div_sub_div _ _ (by positivity) (by positivity)]
  push_cast
  ring_nf

/-- The cross-multiplied cent test coincides with `|a - b| < 1/100` on the
denoted rationals. -/
theorem Dec.diffLtCent_iff (a b : Dec) :
    Dec.diffLtCent a b = true ↔ |a.toRat - b.toRat| < 1 / 100 := by
  rw [Dec.diffLtCent, decide_eq_true_iff, Dec.sub_toRat, abs_div,
    abs_of_pos (show (0:ℚ) < 10 ^ (a.scale + b.scale) by positivity),
    div_lt_div_iff₀ (by positivity) (by norm_num),
    ← Int.cast_lt (R := ℚ)]
  push_cast
  constructor <;> intro h <;> linarith

/-- `Dec.absVal` denotes the absolute value. -/
theorem Dec.absVal_toRat (d : Dec) : d.absVal.toRat = |d.toRat| := by
  rw [Dec.toRat, Dec.absVal, Dec.toRat, abs_div,
    abs_of_pos (show (0:ℚ) < 10 ^ d.scale by positivity)]
  push_cast
  rfl

/-- Direction of a user transaction (source field `type : "income" | "expense"`). -/
inductive UKind
  | income
  | expense
deriving DecidableEq, Repr

/-- Direction of a bank record (source field `type : "debit" | "credit"`). -/
inductive Flow
  | debit
  | credit
deriving DecidableEq, Repr

/-- Source interface `Transaction` (user transaction); the source field
`type` is called `kind` here (`type` is a Lean keyword). -/
structure Transaction where
  id : Str
  date : Str
  amount : Dec
  category : Str
  kind : UKind
  description : Str
deriving DecidableEq, Repr

/-- Source interface `BankTransaction`; the source field `type` is called
`flow` here. -/
structure BankTransaction where
  date : Str
  description : Str
  amount : Dec
  flow : Flow
deriving DecidableEq, Repr

/-- Source interface `ComparisonResult`.  Bank records carry their
position in the uploaded statement, modelling JS object identity. -/
structure ComparisonResult where
  matched : List (Transaction × ℕ × BankTransaction)
  userOnly : List Transaction
  bankOnly : List (ℕ × BankTransaction)
  mismatched : List (Transaction × (ℕ × BankTransaction) × Str)
deriving DecidableEq, Repr

/-- The matcher's direction-agreement test. -/
def typeAgrees (u : Transaction) (b : BankTransaction) : Bool :=
  (u.kind == .income && b.flow == .credit) || (u.kind == .expense && b.flow == .debit)

/-- The exact-match predicate of `compareTransactions`
(`amountMatch && dateMatch && typeMatch`). -/
def txMatches (u : Transaction) (b : BankTransaction) : Bool :=
  Dec.diffLtCent u.amount b.amount && u.date == b.date && typeAgrees u b

/-- The mismatch-search predicate of `compareTransactions`: same date and
(amount differs by `>= 0.01`, i.e. not `< 0.01`, or direction disagrees). -/
def mismatchCand (u : Transaction) (b : BankTransaction) : Bool :=
  u.date == b.date && (!(Dec.diffLtCent u.amount b.amount) || !(typeAgrees u b))

/-- Source string `"Amount mismatch"`. -/
def amountMismatchReason : Str := "Amount mismatch".data

/-- Source string `"Transaction type mismatch"`. -/
def typeMismatchReason : Str := "Transaction type mismatch".data

/-- One iteration of the `transactions.forEach` loop of
`compareTransactions`.  Both searches run over the full uploaded bank
list `bankAll` (the source calls `bankTransactions.find`, not a search
over the remaining pool); the pools `userOnly`/`bankOnly` are only
filtered (`t.id !== userTx.id`, reference inequality for bank records). -/
def compareStep (bankAll : List (ℕ × BankTransaction)) (st : ComparisonResult)
    (u : Transaction) : ComparisonResult :=
  match bankAll.find? (fun ib => txMatches u ib.2) with
  | some ib =>
    { st with
      matched := st.matched ++ [(u, ib)]
      userOnly := st.userOnly.filter (fun t => !(t.id == u.id))
      bankOnly := st.bankOnly.filter (fun x => !(x.1 == ib.1)) }
  | none =>
    match bankAll.find? (fun ib => mismatchCand u ib.2) with
    | some ib =>
      { st with
        mismatched := st.mismatched ++
          [(u, ib,
            if Dec.diffLtCent u.amount ib.2.amount then typeMismatchReason
            else amountMismatchReason)]
        userOnly := st.userOnly.filter (fun t => !(t.id == u.id))
        bankOnly := st.bankOnly.filter (fun x => !(x.1 == ib.1)) }
    | none => st

/-- Source `compareTransactions` (the pure comparison after the
empty-upload guard): a single pass over the user transactions, starting
from `userOnly = [...transactions]`, `bankOnly = [...bankTransactions]`. -/
def compareTransactions (userTxs : List Transaction) (bankTxs : List BankTransaction) :
    ComparisonResult :=
  userTxs.foldl (compareStep bankTxs.enum) ⟨[], userTxs, bankTxs.enum, []⟩

/-- Model of JS `parseFloat` as used by `parseCSV`: skip leading
whitespace, optional sign, then digits with an optional fractional part;
trailing characters are ignored; `none` models `NaN` (no parsable
prefix).  Exponent notation and `Infinity` literals, which the inputs
considered here never contain, are not modelled (treated as ending the
numeric prefix). -/
def parseFloat (s : Str) : Option Dec :=
  let s1 := s.dropWhile isWSChar
  let sg : ℤ × Str :=
    match s1 with
    | '-' :: r => (-1, r)
    | '+' :: r => (1, r)
    | r => (1, r)
  let ip := sg.2.takeWhile Char.isDigit
  let rest := sg.2.dropWhile Char.isDigit
  let fp : Str :=
    match rest with
    | '.' :: r => r.takeWhile Char.isDigit
    | _ => []
  if ip.isEmpty && fp.isEmpty then none
  else some ⟨sg.1 * ((digitsVal ip : ℤ) * 10 ^ fp.length + (digitsVal fp : ℤ)), fp.length⟩

def isLeapYear (y : ℕ) : Bool :=
  (y % 4 == 0 && y % 100 != 0) || y % 400 == 0

def daysInMonth (y m : ℕ) : ℕ :=
  if m == 2 then (if isLeapYear y then 29 else 28)
  else if m == 4 || m == 6 || m == 9 || m == 11 then 30
  else 31

def validYMD (y m d : ℕ) : Bool :=
  decide (1 ≤ m) && decide (m ≤ 12) && decide (1 ≤ d) && decide (d ≤ daysInMonth y m)

/-- Non-empty all-digit string. -/
def allDigits (s : Str) : Bool := !s.isEmpty && s.all Char.isDigit

/-- Zero-pad a day/month string to two characters (`String.padStart(2, "0")`
on a 1–2 digit string). -/
def pad2 (s : Str) : Str := if s.length == 1 then '0' :: s else s

/-- The `D.M.YYYY` / `D-M-YYYY` fallback branches of the source
`formatDate`: regex `^(\d{1,2})[sep](\d{1,2})\.(\d{4})$`, rebuild a
zero-padded ISO string, and accept it if it denotes a real calendar date
(the `new Date(...)`/`isNaN` check of the source). -/
def tryDMY (sep : Char) (s : Str) : Option Str :=
  match splitChar sep s with
  | [ds, ms, ys] =>
    if allDigits ds && decide (ds.length ≤ 2) && allDigits ms && decide (ms.length ≤ 2) &&
        allDigits ys && ys.length == 4 &&
        validYMD (digitsVal ys) (digitsVal ms) (digitsVal ds) then
      some (ys ++ '-' :: pad2 ms ++ '-' :: pad2 ds)
    else none
  | _ => none

/-- Model of the source `formatDate`.  The JS `new Date(dateStr)` branch
is modelled for the ECMAScript-mandated `YYYY-MM-DD` format (a valid ISO
calendar date is returned unchanged, which is what
`toISOString().split("T")[0]` yields for it); engine-specific extra
formats accepted by the `Date` constructor are not modelled.  Then the
source's `D.M.YYYY` and `D-M-YYYY` regex fallbacks, in that order.
`none` models the `"Invalid Date"` return value. -/
def formatDate (s : Str) : Option Str :=
  let iso : Option Str :=
    match splitChar '-' s with
    | [ys, ms, ds] =>
      if allDigits ys && ys.length == 4 && allDigits ms && ms.length == 2 &&
          allDigits ds && ds.length == 2 &&
          validYMD (digitsVal ys) (digitsVal ms) (digitsVal ds) then
        some s
      else none
    | _ => none
  match iso with
  | some d => some d
  | none =>
    match tryDMY '.' s with
    | some d => some d
    | none => tryDMY '-' s

/-- The header analysis of `parseCSV`: detected delimiter and the
`findIndex` results for the date, description, amount and type columns. -/
structure HeaderInfo where
  delimiter : Char
  dateIndex : Option ℕ
  descIndex : Option ℕ
  amountIndex : Option ℕ
  typeIndex : Option ℕ
deriving DecidableEq, Repr

/-- Delimiter detection of `parseCSV`: semicolon, else tab, else comma,
inspecting only the header line. -/
def detectDelimiter (headerLine : Str) : Char :=
  if strContains headerLine ";".data then ';'
  else if strContains headerLine "\t".data then '\t'
  else ','

/-- Header parsing of `parseCSV`: lower-case the header line, split on
the detected delimiter, trim and strip quotes from each cell, and locate
each column by substring containment (`findIndex`; `none` models `-1`). -/
def headerInfo (headerLine : Str) : HeaderInfo :=
  let delimiter := detectDelimiter headerLine
  let headers := (splitChar delimiter (lowerStr headerLine)).map
    (fun h => stripQuotes (trimStr h))
  { delimiter := delimiter
    dateIndex := headers.findIdx? (fun h =>
      strContains h "date".data || strContains h "datum".data)
    descIndex := headers.findIdx? (fun h =>
      strContains h "description".data || strContains h "memo".data ||
      strContains h "detail".data || strContains h "beschreibung".data)
    amountIndex := headers.findIdx? (fun h =>
      strContains h "amount".data || strContains h "betrag".data)
    typeIndex := headers.findIdx? (fun h =>
      strContains h "type".data || strContains h "transaction".data ||
      strContains h "art".data) }

/-- One data line of `parseCSV` (the body of the `.map` over
`lines.slice(1)` combined with the final `t !== null && !isNaN(t.amount)`
filter): `none` is a silently dropped row. -/
def parseRow (delimiter : Char) (di si ai : ℕ) (ti : Option ℕ) (line : Str) :
    Option BankTransaction :=
  let columns := (splitChar delimiter line).map (fun c => stripQuotes (trimStr c))
  if decide (columns.length ≤ max di (max si (max ai (ti.getD 0)))) ||
      (trimStr line).isEmpty then
    none
  else
    match parseFloat (replaceFirstChar ',' '.' (columns.getD ai [])) with
    | none => none
    | some a =>
      let amountFlow : Dec × Flow :=
        match ti with
        | some t =>
          let typeValue := lowerStr (columns.getD t [])
          (a,
            if strContains typeValue "credit".data || strContains typeValue "deposit".data ||
                strContains typeValue "haben".data then .credit
            else .debit)
        | none => (a.absVal, if a.isPos then .credit else .debit)
      match formatDate (columns.getD di []) with
      | none => none
      | some d =>
        some { date := d, description := columns.getD si [],
               amount := amountFlow.1, flow := amountFlow.2 }

/-- The fatal-ingestion error message of the source. -/
def requiredColsErr : Str :=
  "Required columns (Date, Description, Amount) not found".data

/-- Source `parseCSV`: trim the whole text, split into lines, analyse the
header, and either fail fatally (`throw`, modelled as `Except.error`)
when a required column is missing, or map the data lines through
`parseRow`, silently dropping defective rows. -/
def parseCSV (text : Str) : Except Str (List BankTransaction) :=
  let lines := splitChar '\n' (trimStr text)
  if lines.length == 0 then .ok []
  else
    let hi := headerInfo (lines.headD [])
    match hi.dateIndex, hi.descIndex, hi.amountIndex with
    | some di, some si, some ai =>
      .ok ((lines.drop 1).filterMap (parseRow hi.delimiter di si ai hi.typeIndex))
    | _, _, _ => .error requiredColsErr

/-- Decimal digits of a natural number (model of JS number-to-string for
the non-negative integers appearing in the report). -/
def natDigits (n : ℕ) : Str := Nat.toDigits 10 n

/-- Model of JS `Number.prototype.toFixed(2)` on exact decimals: round
half away from zero to two fractional digits and render with exactly two
fractional digits. -/
def toFixed2 (d : Dec) : Str :=
  let cents : ℕ := (200 * d.num.natAbs + 10 ^ d.scale) / (2 * 10 ^ d.scale)
  let frac := cents % 100
  (if d.num < 0 then ['-'] else []) ++ natDigits (cents / 100) ++
    '.' :: (if frac < 10 then '0' :: natDigits frac else natDigits frac)

/-- The literal union value inserted by the report's template strings for
a user transaction's `type` field. -/
def kindStr : UKind → Str
  | .income => "income".data
  | .expense => "expense".data

/-- The literal union value inserted for a bank record's `type` field. -/
def flowStr : Flow → Str
  | .debit => "debit".data
  | .credit => "credit".data

/-- A quote character as text. -/
def qc : Str := ['"']

/-- One row of the report's "Mismatched Transactions" section, exactly as
the source template literal builds it. -/
def mismatchedRow (m : Transaction × (ℕ × BankTransaction) × Str) : Str :=
  qc ++ m.2.2 ++ "\",\"".data ++ m.1.date ++ "\",\"".data ++ m.1.description ++
    "\",\"".data ++ m.1.category ++ "\",\"".data ++ toFixed2 m.1.amount ++
    "\",\"".data ++ kindStr m.1.kind ++ "\",\"".data ++ m.2.1.2.description ++
    "\",\"".data ++ toFixed2 m.2.1.2.amount ++ "\",\"".data ++ flowStr m.2.1.2.flow ++
    qc ++ "\n".data

/-- One row of the report's "Missing from Bank" section. -/
def userOnlyRow (t : Transaction) : Str :=
  qc ++ t.date ++ "\",\"".data ++ t.description ++ "\",\"".data ++ t.category ++
    "\",\"".data ++ toFixed2 t.amount ++ "\",\"".data ++ kindStr t.kind ++
    qc ++ "\n".data

/-- One row of the report's "Missing from Records" section. -/
def bankOnlyRow (ib : ℕ × BankTransaction) : Str :=
  qc ++ ib.2.date ++ "\",\"".data ++ ib.2.description ++ "\",\"".data ++
    toFixed2 ib.2.amount ++ "\",\"".data ++ flowStr ib.2.flow ++ qc ++ "\n".data

/-- Source `generateReport`: summary section, then each non-empty detail
section, concatenated exactly as the source's `csvContent +=` lines do. -/
def generateReport (r : ComparisonResult) : Str :=
  "Comparison Report\n\n".data ++
  "Summary\n".data ++
  "\"Metric\",\"Count\"\n".data ++
  "\"Matched\",".data ++ natDigits r.matched.length ++ "\n".data ++
  "\"Missing from Bank\",".data ++ natDigits r.userOnly.length ++ "\n".data ++
  "\"Missing from Records\",".data ++ natDigits r.bankOnly.length ++ "\n".data ++
  "\"Mismatched\",".data ++ natDigits r.mismatched.length ++ "\n".data ++
  "\n".data ++
  (if r.mismatched.length > 0 then
    "Mismatched Transactions\n".data ++
    "\"Reason\",\"Date\",\"Your Description\",\"Your Category\",\"Your Amount\",\"Your Type\",\"Bank Description\",\"Bank Amount\",\"Bank Type\"\n".data ++
    (r.mismatched.map mismatchedRow).flatten ++ "\n".data
  else []) ++
  (if r.userOnly.length > 0 then
    "Missing from Bank (Your Records Only)\n".data ++
    "\"Date\",\"Description\",\"Category\",\"Amount\",\"Type\"\n".data ++
    (r.userOnly.map userOnlyRow).flatten ++ "\n".data
  else []) ++
  (if r.bankOnly.length > 0 then
    "Missing from Records (Bank Records Only)\n".data ++
    "\"Date\",\"Description\",\"Amount\",\"Type\"\n".data ++
    (r.bankOnly.map bankOnlyRow).flatten ++ "\n".data
  else [])

/-- The bank-record positions consumed so far (recorded in `matched` or
`mismatched`). -/
def consumedIdxs (st : ComparisonResult) : List ℕ :=
  st.matched.map (fun p => p.2.1) ++ st.mismatched.map (fun m => m.2.1.1)

/-- Modelled from the spec (§4.4): "standard tabular-text quoting: wrap in
quotes, double any embedded quote".  Used only to compare the code's
field serialization against the spec's required escaping. -/
def escQuote (s : Str) : Str :=
  s.flatMap (fun c => if c == '"' then ['"', '"'] else [c])

/-- Modelled from the spec (§4.4): a field value, quote-escaped. -/
def specField (s : Str) : Str := qc ++ escQuote s ++ qc

/-! ### Concrete data for witnesses and counterexamples -/

/-- A user transaction exactly matching `cb1`. -/
def cu1 : Transaction :=
  ⟨"1".data, "2024-01-05".data, ⟨50, 0⟩, "food".data, .expense, "lunch".data⟩

/-- A second user transaction, identical to `cu1` except for its id. -/
def cu2 : Transaction :=
  ⟨"2".data, "2024-01-05".data, ⟨50, 0⟩, "food".data, .expense, "lunch".data⟩

/-- A bank record exactly matching both `cu1` and `cu2`. -/
def cb1 : BankTransaction :=
  ⟨"2024-01-05".data, "LUNCH".data, ⟨50, 0⟩, .debit⟩

/-- A user transaction sharing its id with `du2` and matching `db1`. -/
def du1 : Transaction :=
  ⟨"d".data, "2024-02-01".data, ⟨50, 0⟩, "a".data, .expense, "x".data⟩

/-- A user transaction sharing its id with `du1`, with a date matching no
bank record. -/
def du2 : Transaction :=
  ⟨"d".data, "2024-03-01".data, ⟨70, 0⟩, "a".data, .expense, "y".data⟩

/-- A bank record exactly matching `du1`. -/
def db1 : BankTransaction :=
  ⟨"2024-02-01".data, "X".data, ⟨50, 0⟩, .debit⟩

/-- An income user transaction with the same date and amount as the debit
record `bC4`. -/
def uC4 : Transaction :=
  ⟨"9".data, "2024-01-05".data, ⟨50, 0⟩, "pay".data, .income, "salary".data⟩

/-- A debit bank record with the same date and amount as `uC4`. -/
def bC4 : BankTransaction :=
  ⟨"2024-01-05".data, "SALARY".data, ⟨50, 0⟩, .debit⟩

/-- A user transaction whose amount differs from `b9` by exactly 0.009. -/
def u9a : Transaction :=
  ⟨"9a".data, "2024-01-05".data, ⟨50009, 3⟩, "c".data, .expense, "t".data⟩

/-- A user transaction whose amount differs from `b9` by exactly 0.011. -/
def u9b : Transaction :=
  ⟨"9b".data, "2024-01-05".data, ⟨50011, 3⟩, "c".data, .expense, "t".data⟩

/-- A debit bank record with amount 50 on the shared date. -/
def b9 : BankTransaction :=
  ⟨"2024-01-05".data, "T".data, ⟨50, 0⟩, .debit⟩

/-- A user transaction whose description contains a quote character. -/
def tQ : Transaction :=
  ⟨"q".data, "2024-01-05".data, ⟨525, 2⟩, "food".data, .expense, "He said \"hi\"".data⟩

/-- A comparison result whose only entry is the quote-containing `tQ` in
`userOnly`. -/
def rQ : ComparisonResult := ⟨[], [tQ], [], []⟩

/-- A quote-free user transaction whose description contains the
delimiter. -/
def tW : Transaction :=
  ⟨"w".data, "2024-01-05".data, ⟨525, 2⟩, "food".data, .expense, "a,b".data⟩

/-! ## Helper lemmas about the embedding -/

/-- `splitChar` never returns the empty list (as in JS, where
`"".split(d)` is `[""]`); hence the `lines.length === 0` early return of
`parseCSV` is dead code. -/
theorem splitChar_ne_nil (d : Char) (s : Str) : splitChar d s ≠ [] := by
  induction s with
  | nil => simp [splitChar]
  | cons c rest ih =>
    simp only [splitChar]
    cases h : splitChar d rest with
    | nil => exact absurd h ih
    | cons a l =>
      by_cases hc : (c == d) = true <;> simp [hc]

/-- The three possible outcomes of one matcher iteration. -/
theorem compareStep_cases (bankAll : List (ℕ × BankTransaction)) (st : ComparisonResult)
    (u : Transaction) :
    (∃ ib, bankAll.find? (fun x => txMatches u x.2) = some ib ∧
      compareStep bankAll st u =
        { matched := st.matched ++ [(u, ib)]
          userOnly := st.userOnly.filter (fun t => !(t.id == u.id))
          bankOnly := st.bankOnly.filter (fun x => !(x.1 == ib.1))
          mismatched := st.mismatched }) ∨
    (∃ ib, bankAll.find? (fun x => txMatches u x.2) = none ∧
      bankAll.find? (fun x => mismatchCand u x.2) = some ib ∧
      compareStep bankAll st u =
        { matched := st.matched
          userOnly := st.userOnly.filter (fun t => !(t.id == u.id))
          bankOnly := st.bankOnly.filter (fun x => !(x.1 == ib.1))
          mismatched := st.mismatched ++
            [(u, ib,
              if Dec.diffLtCent u.amount ib.2.amount then typeMismatchReason
              else amountMismatchReason)] }) ∨
    (bankAll.find? (fun x => txMatches u x.2) = none ∧
      bankAll.find? (fun x => mismatchCand u x.2) = none ∧
      compareStep bankAll st u = st) := by
  cases h1 : bankAll.find? (fun x => txMatches u x.2) with
  | some ib => exact Or.inl ⟨ib, rfl, by simp [compareStep, h1]⟩
  | none =>
    cases h2 : bankAll.find? (fun x => mismatchCand u x.2) with
    | some ib => exact Or.inr (Or.inl ⟨ib, rfl, rfl, by simp [compareStep, h1, h2]⟩)
    | none => exact Or.inr (Or.inr ⟨rfl, rfl, by simp [compareStep, h1, h2]⟩)

/-- Entries accumulated in `matched` and `mismatched` always record the
`find?` results over the full bank list that produced them. -/
theorem foldl_entries (bankAll : List (ℕ × BankTransaction)) :
    ∀ (rest : List Transaction) (st : ComparisonResult),
      (∀ p ∈ st.matched, bankAll.find? (fun x => txMatches p.1 x.2) = some p.2) →
      (∀ m ∈ st.mismatched,
        bankAll.find? (fun x => txMatches m.1 x.2) = none ∧
        bankAll.find? (fun x => mismatchCand m.1 x.2) = some m.2.1 ∧
        m.2.2 = (if Dec.diffLtCent m.1.amount m.2.1.2.amount then typeMismatchReason
                 else amountMismatchReason)) →
      (∀ p ∈ (rest.foldl (compareStep bankAll) st).matched,
        bankAll.find? (fun x => txMatches p.1 x.2) = some p.2) ∧
      (∀ m ∈ (rest.foldl (compareStep bankAll) st).mismatched,
        bankAll.find? (fun x => txMatches m.1 x.2) = none ∧
        bankAll.find? (fun x => mismatchCand m.1 x.2) = some m.2.1 ∧
        m.2.2 = (if Dec.diffLtCent m.1.amount m.2.1.2.amount then typeMismatchReason
                 else amountMismatchReason)) := by
  intro rest
  induction rest with
  | nil => intro st h1 h2; exact ⟨h1, h2⟩
  | cons u rest ih =>
    intro st h1 h2
    rw [List.foldl_cons]
    rcases compareStep_cases bankAll st u with ⟨ib, hf, hstep⟩ | ⟨ib, hf, hg, hstep⟩ | ⟨_, _, hstep⟩
    · refine ih _ ?_ ?_
      · rw [hstep]
        intro p hp
        rcases List.mem_append.mp hp with h | h
        · exact h1 p h
        · rcases List.mem_singleton.mp h with rfl
          exact hf
      · rw [hstep]; exact h2
    · refine ih _ ?_ ?_
      · rw [hstep]; exact h1
      · rw [hstep]
        intro m hm
        rcases List.mem_append.mp hm with h | h
        · exact h2 m h
        · rcases List.mem_singleton.mp h with rfl
          exact ⟨hf, hg, rfl⟩
    · rw [hstep]; exact ih _ h1 h2

/-- The user-only pool only ever shrinks by filtering. -/
theorem foldl_userOnly_sublist (bankAll : List (ℕ × BankTransaction)) (U : List Transaction) :
    ∀ (rest : List Transaction) (st : ComparisonResult),
      st.userOnly.Sublist U → ((rest.foldl (compareStep bankAll) st).userOnly).Sublist U := by
  intro rest
  induction rest with
  | nil => intro st h; exact h
  | cons u rest ih =>
    intro st h
    rw [List.foldl_cons]
    rcases compareStep_cases bankAll st u with ⟨ib, _, hstep⟩ | ⟨ib, _, _, hstep⟩ | ⟨_, _, hstep⟩ <;>
      rw [hstep] <;>
      exact ih _ (by first | exact (List.filter_sublist _).trans h | exact h)

/-- The bank-only pool only ever shrinks by filtering. -/
theorem foldl_bankOnly_sublist (bankAll B : List (ℕ × BankTransaction)) :
    ∀ (rest : List Transaction) (st : ComparisonResult),
      st.bankOnly.Sublist B → ((rest.foldl (compareStep bankAll) st).bankOnly).Sublist B := by
  intro rest
  induction rest with
  | nil => intro st h; exact h
  | cons u rest ih =>
    intro st h
    rw [List.foldl_cons]
    rcases compareStep_cases bankAll st u with ⟨ib, _, hstep⟩ | ⟨ib, _, _, hstep⟩ | ⟨_, _, hstep⟩ <;>
      rw [hstep] <;>
      exact ih _ (by first | exact (List.filter_sublist _).trans h | exact h)

/-- The user transactions recorded in `matched` form a subsequence of the
processed user transactions, in processing order. -/
theorem foldl_matched_fst (bankAll : List (ℕ × BankTransaction)) :
    ∀ (rest : List Transaction) (st : ComparisonResult) (acc : List Transaction),
      (st.matched.map Prod.fst).Sublist acc →
      (((rest.foldl (compareStep bankAll) st).matched.map Prod.fst)).Sublist (acc ++ rest) := by
  intro rest
  induction rest with
  | nil => intro st acc h; simpa using h
  | cons u rest ih =>
    intro st acc h
    rw [List.foldl_cons]
    have hstep : ((compareStep bankAll st u).matched.map Prod.fst).Sublist (acc ++ [u]) := by
      rcases compareStep_cases bankAll st u with ⟨ib, _, hstep⟩ | ⟨ib, _, _, hstep⟩ | ⟨_, _, hstep⟩ <;>
        rw [hstep]
      · rw [List.map_append]
        exact h.append (List.Sublist.refl _)
      · exact h.trans (List.sublist_append_left acc [u])
      · exact h.trans (List.sublist_append_left acc [u])
    have := ih (compareStep bankAll st u) (acc ++ [u]) hstep
    simpa [List.append_assoc] using this

/-- The user transactions recorded in `mismatched` form a subsequence of
the processed user transactions, in processing order. -/
theorem foldl_mismatched_fst (bankAll : List (ℕ × BankTransaction)) :
    ∀ (rest : List Transaction) (st : ComparisonResult) (acc : List Transaction),
      (st.mismatched.map (fun m => m.1)).Sublist acc →
      (((rest.foldl (compareStep bankAll) st).mismatched.map (fun m => m.1))).Sublist (acc ++ rest) := by
  intro rest
  induction rest with
  | nil => intro st acc h; simpa using h
  | cons u rest ih =>
    intro st acc h
    rw [List.foldl_cons]
    have hstep : ((compareStep bankAll st u).mismatched.map (fun m => m.1)).Sublist (acc ++ [u]) := by
      rcases compareStep_cases bankAll st u with ⟨ib, _, hstep⟩ | ⟨ib, _, _, hstep⟩ | ⟨_, _, hstep⟩ <;>
        rw [hstep]
      · exact h.trans (List.sublist_append_left acc [u])
      · rw [List.map_append]
        exact h.append (List.Sublist.refl _)
      · exact h.trans (List.sublist_append_left acc [u])
    have := ih (compareStep bankAll st u) (acc ++ [u]) hstep
    simpa [List.append_assoc] using this

theorem countP_not_add (p : α → Bool) (l : List α) :
    l.countP (fun a => !(p a)) + l.countP p = l.length := by
  induction l with
  | nil => rfl
  | cons a l ih =>
    by_cases h : p a = true <;>
      simp [List.countP_cons, h, ← ih] <;> omega

/-- Processing a list of user transactions whose ids are fresh (each id
occurs exactly once in the current user-only pool, and the ids are
pairwise distinct) preserves `|matched| + |mismatched| + |userOnly|`. -/
theorem foldl_count (bankAll : List (ℕ × BankTransaction)) :
    ∀ (rest : List Transaction) (st : ComparisonResult),
      (∀ u ∈ rest, st.userOnly.countP (fun t => t.id == u.id) = 1) →
      (rest.map Transaction.id).Nodup →
      (rest.foldl (compareStep bankAll) st).matched.length +
        (rest.foldl (compareStep bankAll) st).mismatched.length +
        (rest.foldl (compareStep bankAll) st).userOnly.length =
      st.matched.length + st.mismatched.length + st.userOnly.length := by
  intro rest
  induction rest with
  | nil => intro st _ _; rfl
  | cons u rest ih =>
    intro st hcount hnd
    rw [List.map_cons, List.nodup_cons] at hnd
    have hone : st.userOnly.countP (fun t => t.id == u.id) = 1 :=
      hcount u (List.mem_cons_self u rest)
    have hlen : (st.userOnly.filter (fun t => !(t.id == u.id))).length + 1 =
        st.userOnly.length := by
      rw [← List.countP_eq_length_filter, ← hone]
      exact countP_not_add _ _
    have hrest : ∀ u' ∈ rest,
        (st.userOnly.filter (fun t => !(t.id == u.id))).countP
          (fun t => t.id == u'.id) = 1 := by
      intro u' hu'
      have hne : u'.id ≠ u.id := by
        intro hEq
        exact hnd.1 (hEq ▸ List.mem_map_of_mem Transaction.id hu')
      rw [List.countP_filter]
      rw [List.countP_congr (q := fun t => t.id == u'.id) ?_]
      · exact hcount u' (List.mem_cons_of_mem u hu')
      · intro t _
        by_cases h : t.id = u'.id
        · simp [h, hne]
        · simp [h]
    rw [List.foldl_cons]
    rcases compareStep_cases bankAll st u with ⟨ib, _, hstep⟩ | ⟨ib, _, _, hstep⟩ | ⟨_, _, hstep⟩
    · rw [hstep, ih _ (by simpa using hrest) hnd.2]
      simp only [List.length_append, List.length_cons, List.length_nil]
      omega
    · rw [hstep, ih _ (by simpa using hrest) hnd.2]
      simp only [List.length_append, List.length_cons, List.length_nil]
      omega
    · rw [hstep, ih _ (fun u' hu' => hcount u' (List.mem_cons_of_mem u hu')) hnd.2]

/-- In a user list with pairwise-distinct ids, each member's id occurs
exactly once. -/
theorem countP_id_eq_one :
    ∀ (l : List Transaction), (l.map Transaction.id).Nodup →
      ∀ u ∈ l, l.countP (fun t => t.id == u.id) = 1 := by
  intro l
  induction l with
  | nil => intro _ u hu; cases hu
  | cons a l ih =>
    intro hnd u hu
    rw [List.map_cons, List.nodup_cons] at hnd
    rcases List.mem_cons.mp hu with rfl | hu'
    · rw [List.countP_cons_of_pos _ _ (by simp)]
      have : l.countP (fun t => t.id == u.id) = 0 := by
        rw [List.countP_eq_zero]
        intro t ht
        simp only [beq_iff_eq]
        intro hEq
        exact hnd.1 (hEq ▸ List.mem_map_of_mem Transaction.id ht)
      rw [this]
    · have hne : a.id ≠ u.id := by
        intro hEq
        exact hnd.1 (hEq ▸ List.mem_map_of_mem Transaction.id hu')
      rw [List.countP_cons_of_neg _ _ (by simp [hne])]
      exact ih hnd.2 u hu'

/-- The bank-only pool is always the original bank list minus the
consumed positions. -/
theorem foldl_bankOnly_filter (bankAll : List (ℕ × BankTransaction)) :
    ∀ (rest : List Transaction) (st : ComparisonResult),
      st.bankOnly = bankAll.filter (fun ib => decide (ib.1 ∉ consumedIdxs st)) →
      (rest.foldl (compareStep bankAll) st).bankOnly =
        bankAll.filter
          (fun ib => decide (ib.1 ∉ consumedIdxs (rest.foldl (compareStep bankAll) st))) := by
  intro rest
  induction rest with
  | nil => intro st h; exact h
  | cons u rest ih =>
    intro st h
    rw [List.foldl_cons]
    rcases compareStep_cases bankAll st u with ⟨ib, _, hstep⟩ | ⟨ib, _, _, hstep⟩ | ⟨_, _, hstep⟩
    · refine ih _ ?_
      rw [hstep, h, List.filter_filter]
      refine List.filter_congr ?_
      intro a _
      rw [Bool.eq_iff_iff]
      simp only [consumedIdxs, hstep]
      simp [List.mem_append, beq_iff_eq]
      tauto
    · refine ih _ ?_
      rw [hstep, h, List.filter_filter]
      refine List.filter_congr ?_
      intro a _
      rw [Bool.eq_iff_iff]
      simp only [consumedIdxs, hstep]
      simp [List.mem_append, beq_iff_eq]
      tauto
    · rw [hstep]; exact ih _ h

/-! ## Claim theorems -/

/-- C1 (counterexample): the conservation claim fails on the code.  With
two user transactions both exactly matching the single bank record, the
record instance (position 0) appears twice in `matched` and nowhere else
(duplication, so not "in exactly one bucket"); and with two user
transactions sharing an id, `|matched| + |mismatched| + |userOnly| = 1`
although there are 2 user transactions (the id-based `userOnly` filter
also removes the second one). -/
theorem bank_record_duplicated_counterexample :
    ((compareTransactions [cu1, cu2] [cb1]).matched.countP (fun p => p.2.1 == 0) +
      (compareTransactions [cu1, cu2] [cb1]).mismatched.countP (fun m => m.2.1.1 == 0) +
      (compareTransactions [cu1, cu2] [cb1]).bankOnly.countP (fun ib => ib.1 == 0) = 2) ∧
    ((compareTransactions [du1, du2] [db1]).matched.length +
      (compareTransactions [du1, du2] [db1]).mismatched.length +
      (compareTransactions [du1, du2] [db1]).userOnly.length = 1) := by
  constructor <;> decide

/-- C1 (amended): when the user-transaction ids are pairwise distinct,
`|matched| + |mismatched| + |userOnly| = |userTxs|`; and every bank
record instance lies in `bankOnly` exactly when it was never consumed
into `matched` or `mismatched` (so none is lost, and none is both
leftover and consumed — but a consumed record may appear several times
across `matched`/`mismatched`). -/
theorem conservation_amended (userTxs : List Transaction) (bankTxs : List BankTransaction)
    (h : (userTxs.map Transaction.id).Nodup) :
    ((compareTransactions userTxs bankTxs).matched.length +
      (compareTransactions userTxs bankTxs).mismatched.length +
      (compareTransactions userTxs bankTxs).userOnly.length = userTxs.length) ∧
    (∀ ib ∈ bankTxs.enum,
      ((ib ∈ (compareTransactions userTxs bankTxs).bankOnly ↔
        ib.1 ∉ consumedIdxs (compareTransactions userTxs bankTxs)) ∧
      (ib ∈ (compareTransactions userTxs bankTxs).bankOnly ∨
        ib.1 ∈ consumedIdxs (compareTransactions userTxs bankTxs)))) := by
  constructor
  · have := foldl_count bankTxs.enum userTxs ⟨[], userTxs, bankTxs.enum, []⟩
      (countP_id_eq_one userTxs h) h
    simpa [compareTransactions] using this
  · have hinit : (⟨[], userTxs, bankTxs.enum, []⟩ : ComparisonResult).bankOnly =
        bankTxs.enum.filter
          (fun ib => decide (ib.1 ∉ consumedIdxs (⟨[], userTxs, bankTxs.enum, []⟩ : ComparisonResult))) := by
      simp [consumedIdxs]
    have hfin := foldl_bankOnly_filter bankTxs.enum userTxs _ hinit
    have hfin' : (compareTransactions userTxs bankTxs).bankOnly =
        bankTxs.enum.filter
          (fun ib => decide (ib.1 ∉ consumedIdxs (compareTransactions userTxs bankTxs))) := hfin
    intro ib hib
    constructor
    · rw [hfin', List.mem_filter]
      simp [hib]
    · by_cases hc : ib.1 ∈ consumedIdxs (compareTransactions userTxs bankTxs)
      · exact Or.inr hc
      · refine Or.inl ?_
        rw [hfin', List.mem_filter]
        simp [hib, hc]

/-- Witness for C1 (amended) at a one-element input. -/
theorem conservation_amended_witness :
    ((compareTransactions [cu1] [cb1]).matched.length +
      (compareTransactions [cu1] [cb1]).mismatched.length +
      (compareTransactions [cu1] [cb1]).userOnly.length = 1) ∧
    (((0, cb1) ∈ (compareTransactions [cu1] [cb1]).bankOnly) ↔
      (0 : ℕ) ∉ consumedIdxs (compareTransactions [cu1] [cb1])) :=
  ⟨(conservation_amended [cu1] [cb1] (by decide)).1,
    ((conservation_amended [cu1] [cb1] (by decide)).2 (0, cb1) (by decide)).1⟩

/-- C2 (counterexample): the bank record at position 0 is consumed by the
first user transaction `cu1` (recorded in `matched`), yet it is paired
again with the later user transaction `cu2` — the searches run over the
full uploaded list, not over the not-yet-consumed pool. -/
theorem consumed_record_reused_counterexample :
    (compareTransactions [cu1, cu2] [cb1]).matched =
      [(cu1, 0, cb1), (cu2, 0, cb1)] := by
  decide

/-- C2 (amended): each user transaction (in input order) searches the
full original bank-record list: every `matched` entry stores the first
record of the original list satisfying the exact-match predicate for its
user transaction, and every `mismatched` entry stores the first record
satisfying the mismatch predicate (with no exact match anywhere in the
list) — regardless of consumption by earlier user transactions. -/
theorem full_pool_first_match (userTxs : List Transaction) (bankTxs : List BankTransaction) :
    (∀ p ∈ (compareTransactions userTxs bankTxs).matched,
      bankTxs.enum.find? (fun x => txMatches p.1 x.2) = some p.2) ∧
    (∀ m ∈ (compareTransactions userTxs bankTxs).mismatched,
      bankTxs.enum.find? (fun x => txMatches m.1 x.2) = none ∧
      bankTxs.enum.find? (fun x => mismatchCand m.1 x.2) = some m.2.1) := by
  have h := foldl_entries bankTxs.enum userTxs ⟨[], userTxs, bankTxs.enum, []⟩
    (by simp) (by simp)
  exact ⟨h.1, fun m hm => ⟨(h.2 m hm).1, (h.2 m hm).2.1⟩⟩

/-- Witness for C2 (amended): the entry recorded for the second user
transaction is the first full-list match. -/
theorem full_pool_first_match_witness :
    [cb1].enum.find? (fun x => txMatches cu2 x.2) = some (0, cb1) :=
  (full_pool_first_match [cu1, cu2] [cb1]).1 (cu2, 0, cb1) (by decide)

/-- C10 (confirmed): all four output sequences preserve input order:
`userOnly` is a subsequence of the input user transactions, the user
transactions underlying `matched` and `mismatched` appear in input
order, and `bankOnly` is a subsequence of the input bank records. -/
theorem output_order_preserved (userTxs : List Transaction) (bankTxs : List BankTransaction) :
    ((compareTransactions userTxs bankTxs).userOnly).Sublist userTxs ∧
    (((compareTransactions userTxs bankTxs).matched.map Prod.fst)).Sublist userTxs ∧
    (((compareTransactions userTxs bankTxs).mismatched.map (fun m => m.1))).Sublist userTxs ∧
    (((compareTransactions userTxs bankTxs).bankOnly.map Prod.snd)).Sublist bankTxs := by
  refine ⟨?_, ?_, ?_, ?_⟩
  · exact foldl_userOnly_sublist bankTxs.enum userTxs userTxs
      ⟨[], userTxs, bankTxs.enum, []⟩ (List.Sublist.refl _)
  · have := foldl_matched_fst bankTxs.enum userTxs ⟨[], userTxs, bankTxs.enum, []⟩ []
      (by simp)
    simpa [compareTransactions] using this
  · have := foldl_mismatched_fst bankTxs.enum userTxs ⟨[], userTxs, bankTxs.enum, []⟩ []
      (by simp)
    simpa [compareTransactions] using this
  · have hsub : ((compareTransactions userTxs bankTxs).bankOnly).Sublist bankTxs.enum :=
      foldl_bankOnly_sublist bankTxs.enum bankTxs.enum userTxs
        ⟨[], userTxs, bankTxs.enum, []⟩ (List.Sublist.refl _)
    have := hsub.map Prod.snd
    rwa [List.enum_map_snd] at this

/-- C4 (confirmed): every mismatched triple carries the amount-mismatch
reason exactly when the amount difference is at least 0.01 (the check
performed first), and the type-mismatch reason exactly when it is below
0.01; and in the concrete same-date same-amount income-vs-debit
scenario the triple lands in `mismatched` with the type-mismatch
reason. -/
theorem mismatch_reason_classification :
    (∀ (userTxs : List Transaction) (bankTxs : List BankTransaction),
      ∀ m ∈ (compareTransactions userTxs bankTxs).mismatched,
        (m.2.2 = amountMismatchReason ↔
          1 / 100 ≤ |m.1.amount.toRat - m.2.1.2.amount.toRat|) ∧
        (m.2.2 = typeMismatchReason ↔
          |m.1.amount.toRat - m.2.1.2.amount.toRat| < 1 / 100)) ∧
    (compareTransactions [uC4] [bC4]).mismatched =
      [(uC4, (0, bC4), typeMismatchReason)] := by
  constructor
  · intro userTxs bankTxs m hm
    have h := (foldl_entries bankTxs.enum userTxs ⟨[], userTxs, bankTxs.enum, []⟩
      (by simp) (by simp)).2 m hm
    have hr := h.2.2
    by_cases hd : Dec.diffLtCent m.1.amount m.2.1.2.amount = true
    · rw [if_pos hd] at hr
      have hlt := (Dec.diffLtCent_iff _ _).mp hd
      refine ⟨?_, ?_⟩
      · rw [hr]
        exact iff_of_false (by decide) (not_le.mpr hlt)
      · exact iff_of_true hr hlt
    · rw [if_neg hd] at hr
      have hge : 1 / 100 ≤ |m.1.amount.toRat - m.2.1.2.amount.toRat| := by
        rcases not_lt.mp (fun hlt => hd ((Dec.diffLtCent_iff _ _).mpr hlt)) with h'
        exact h'
      refine ⟨iff_of_true hr hge, ?_⟩
      · rw [hr]
        exact iff_of_false (by decide) (not_lt.mpr hge)
  · decide

/-- Witness for C4's general part at the concrete income-vs-debit pair. -/
theorem mismatch_reason_classification_witness :
    (typeMismatchReason = amountMismatchReason ↔
      1 / 100 ≤ |(Dec.toRat ⟨50, 0⟩ : ℚ) - Dec.toRat ⟨50, 0⟩|) ∧
    (typeMismatchReason = typeMismatchReason ↔
      |(Dec.toRat ⟨50, 0⟩ : ℚ) - Dec.toRat ⟨50, 0⟩| < 1 / 100) :=
  mismatch_reason_classification.1 [uC4] [bC4]
    (uC4, (0, bC4), typeMismatchReason) (by decide)

/-- C9 (confirmed): under exact rational arithmetic the matcher treats
two amounts as equal exactly when they differ by strictly less than
0.01: the exact-match predicate holds iff `|u - b| < 1/100` together
with date and direction agreement; concretely, amounts differing by
exactly 0.009 are matched, and amounts differing by exactly 0.011 are
not matched but classified under the mismatch rule with the
amount-mismatch reason. -/
theorem amount_tolerance :
    (∀ (u : Transaction) (b : BankTransaction),
      txMatches u b = true ↔
        (|u.amount.toRat - b.amount.toRat| < 1 / 100 ∧ u.date = b.date ∧
          typeAgrees u b = true)) ∧
    (compareTransactions [u9a] [b9]).matched = [(u9a, 0, b9)] ∧
    (compareTransactions [u9a] [b9]).mismatched = [] ∧
    (compareTransactions [u9b] [b9]).matched = [] ∧
    (compareTransactions [u9b] [b9]).mismatched =
      [(u9b, (0, b9), amountMismatchReason)] := by
  refine ⟨?_, by decide, by decide, by decide, by decide⟩
  intro u b
  simp [txMatches, Bool.and_eq_true, Dec.diffLtCent_iff, beq_iff_eq, and_assoc]

/-- For every whitespace-only input the whole text trims to nothing, the
surviving single empty line becomes the header, no required column is
found, and the ingestion fails with the fatal missing-columns error —
the `lines.length === 0` early return meant to produce an empty sequence
is unreachable, because splitting always yields at least one line
(`splitChar_ne_nil`). -/
theorem whitespace_input_fatal_error (text : Str) (h : ∀ c ∈ text, isWSChar c = true) :
    parseCSV text = Except.error requiredColsErr := by
  have h1 : text.dropWhile isWSChar = [] := List.dropWhile_eq_nil_iff.mpr h
  have htrim : trimStr text = [] := by simp [trimStr, h1]
  simp only [parseCSV, htrim]
  decide

/-- C5 (code bug): on the empty input and on whitespace-only input —
inputs with no non-empty line — `parseCSV` raises the fatal
missing-columns ingestion error instead of returning the empty sequence
the (unreachable) `lines.length === 0` guard was meant to produce. -/
theorem empty_input_fatal_error :
    (parseCSV "".data = Except.error requiredColsErr) ∧
    (parseCSV "  \n ".data = Except.error requiredColsErr) :=
  ⟨whitespace_input_fatal_error "".data (by decide),
    whitespace_input_fatal_error "  \n ".data (by decide)⟩

/-- C6 (confirmed): ingestion succeeds exactly when the date, description
and amount columns are all located in the header line, and fails with
the fatal missing-columns error exactly otherwise — defective data rows
never cause a failure (a successful run returns whatever rows survived). -/
theorem ingest_error_iff_missing_columns (text : Str) :
    ((∃ recs, parseCSV text = Except.ok recs) ↔
      ((headerInfo ((splitChar '\n' (trimStr text)).headD [])).dateIndex.isSome = true ∧
        (headerInfo ((splitChar '\n' (trimStr text)).headD [])).descIndex.isSome = true ∧
        (headerInfo ((splitChar '\n' (trimStr text)).headD [])).amountIndex.isSome = true)) ∧
    ((parseCSV text = Except.error requiredColsErr) ↔
      ¬((headerInfo ((splitChar '\n' (trimStr text)).headD [])).dateIndex.isSome = true ∧
        (headerInfo ((splitChar '\n' (trimStr text)).headD [])).descIndex.isSome = true ∧
        (headerInfo ((splitChar '\n' (trimStr text)).headD [])).amountIndex.isSome = true)) := by
  have hne := splitChar_ne_nil '\n' (trimStr text)
  have hlen : ¬(((splitChar '\n' (trimStr text)).length == 0) = true) := by
    simp [List.length_eq_zero, hne]
  simp only [parseCSV]
  rw [if_neg hlen]
  cases h1 : (headerInfo ((splitChar '\n' (trimStr text)).headD [])).dateIndex <;>
    cases h2 : (headerInfo ((splitChar '\n' (trimStr text)).headD [])).descIndex <;>
      cases h3 : (headerInfo ((splitChar '\n' (trimStr text)).headD [])).amountIndex <;>
        simp [h1, h2, h3]

/-- C8 (confirmed): delimiter detection looks only at the header line
with fixed priority semicolon, tab, comma: any header containing a
semicolon selects `;` (whatever else it contains), otherwise a tab
selects the tab character, otherwise the comma is used; in particular
`"Date;Description;Amount;Type"` selects `;`. -/
theorem delimiter_detection (hl : Str) :
    (detectDelimiter hl = ';' ↔ strContains hl ";".data = true) ∧
    (detectDelimiter hl = '\t' ↔
      (strContains hl ";".data = false ∧ strContains hl "\t".data = true)) ∧
    (detectDelimiter hl = ',' ↔
      (strContains hl ";".data = false ∧ strContains hl "\t".data = false)) ∧
    (headerInfo "Date;Description;Amount;Type".data).delimiter = ';' := by
  refine ⟨?_, ?_, ?_, by decide⟩ <;>
    (by_cases h1 : strContains hl ";".data = true <;>
      by_cases h2 : strContains hl "\t".data = true <;>
        simp_all [detectDelimiter])

/-- C3 (counterexample): with a type column present, a negative amount
cell yields a bank record whose stored amount is the raw negative parsed
value, not its absolute value — the record is emitted with a negative
amount. -/
theorem type_column_negative_amount_counterexample :
    (parseCSV "Date,Description,Amount,Type\n2024-01-15,Coffee,-5,debit".data =
      Except.ok [⟨"2024-01-15".data, "Coffee".data, ⟨-5, 0⟩, .debit⟩]) ∧
    (Dec.toRat ⟨-5, 0⟩ < 0) ∧
    ((⟨-5, 0⟩ : Dec) ≠ Dec.absVal ⟨-5, 0⟩) := by
  refine ⟨by decide, by norm_num [Dec.toRat], by decide⟩

/-- C3 (amended): every emitted record's amount is a parsed number (rows
whose amount cell does not parse are dropped), and when the header has
no type column the stored amount is the absolute value of the parsed
amount, hence non-negative; with a type column the raw signed parsed
value is stored and may be negative. -/
theorem no_type_column_amount_nonneg (text : Str) (recs : List BankTransaction)
    (hok : parseCSV text = Except.ok recs)
    (hty : (headerInfo ((splitChar '\n' (trimStr text)).headD [])).typeIndex = none) :
    ∀ rec ∈ recs, 0 ≤ rec.amount.toRat := by
  intro rec hrec
  simp only [parseCSV] at hok
  by_cases hlen : (((splitChar '\n' (trimStr text)).length == 0) = true)
  · rw [if_pos hlen] at hok
    injection hok with h
    subst h
    cases hrec
  · rw [if_neg hlen] at hok
    cases h1 : (headerInfo ((splitChar '\n' (trimStr text)).headD [])).dateIndex with
    | none => rw [h1] at hok; simp at hok
    | some di =>
      cases h2 : (headerInfo ((splitChar '\n' (trimStr text)).headD [])).descIndex with
      | none => rw [h1, h2] at hok; simp at hok
      | some si =>
        cases h3 : (headerInfo ((splitChar '\n' (trimStr text)).headD [])).amountIndex with
        | none => rw [h1, h2, h3] at hok; simp at hok
        | some ai =>
          rw [h1, h2, h3, hty] at hok
          simp only at hok
          injection hok with h
          subst h
          obtain ⟨line, _, hsome⟩ := List.mem_filterMap.mp hrec
          simp only [parseRow] at hsome
          split at hsome
          · cases hsome
          · split at hsome
            · cases hsome
            · split at hsome
              · cases hsome
              · rename_i a _ _ _
                injection hsome with h
                subst h
                simp only
                rw [Dec.absVal_toRat]
                exact abs_nonneg _

/-- Witness for C3 (amended): a no-type-column ingestion of a negative
amount cell stores the non-negative magnitude. -/
theorem no_type_column_amount_nonneg_witness :
    0 ≤ (BankTransaction.mk "2024-01-15".data "Coffee".data ⟨5, 0⟩ .debit).amount.toRat :=
  no_type_column_amount_nonneg "Date,Description,Amount\n2024-01-15,Coffee,-5".data
    [⟨"2024-01-15".data, "Coffee".data, ⟨5, 0⟩, .debit⟩] (by decide) (by decide)
    ⟨"2024-01-15".data, "Coffee".data, ⟨5, 0⟩, .debit⟩ (by decide)

theorem digitChar_ne_quote (m : ℕ) : Nat.digitChar m ≠ '"' := by
  rcases Nat.lt_or_ge m 16 with hlt | hge
  · interval_cases m <;> decide
  · have hx : ∀ k, k < 16 → ¬m = k := by
      intro k hk hEq
      omega
    unfold Nat.digitChar
    rw [if_neg (hx 0 (by decide)), if_neg (hx 1 (by decide)), if_neg (hx 2 (by decide)),
      if_neg (hx 3 (by decide)), if_neg (hx 4 (by decide)), if_neg (hx 5 (by decide)),
      if_neg (hx 6 (by decide)), if_neg (hx 7 (by decide)), if_neg (hx 8 (by decide)),
      if_neg (hx 9 (by decide)), if_neg (hx 10 (by decide)), if_neg (hx 11 (by decide)),
      if_neg (hx 12 (by decide)), if_neg (hx 13 (by decide)), if_neg (hx 14 (by decide)),
      if_neg (hx 15 (by decide))]
    decide

theorem toDigitsCore_ne_quote :
    ∀ (fuel n : ℕ) (ds : Str), (∀ c ∈ ds, c ≠ '"') →
      ∀ c ∈ Nat.toDigitsCore 10 fuel n ds, c ≠ '"' := by
  intro fuel
  induction fuel with
  | zero => intro n ds h c hc; exact h c hc
  | succ fuel ih =>
    intro n ds h c hc
    simp only [Nat.toDigitsCore] at hc
    have hcons : ∀ x ∈ Nat.digitChar (n % 10) :: ds, x ≠ '"' := by
      intro x hx
      rcases List.mem_cons.mp hx with rfl | hx'
      · exact digitChar_ne_quote _
      · exact h x hx'
    split at hc
    · exact hcons c hc
    · exact ih _ _ hcons c hc

theorem natDigits_ne_quote (n : ℕ) : ∀ c ∈ natDigits n, c ≠ '"' :=
  toDigitsCore_ne_quote (n + 1) n [] (by intro c hc; cases hc)

theorem toFixed2_ne_quote (d : Dec) : '"' ∉ toFixed2 d := by
  intro hmem
  simp only [toFixed2] at hmem
  rcases List.mem_append.mp hmem with h | h
  · rcases List.mem_append.mp h with h' | h'
    · revert h'
      split <;> decide
    · exact natDigits_ne_quote _ '"' h' rfl
  · rcases List.mem_cons.mp h with h'' | h''
    · exact absurd h'' (by decide)
    · revert h''
      split
      · intro h''
        rcases List.mem_cons.mp h'' with h3 | h3
        · exact absurd h3 (by decide)
        · exact natDigits_ne_quote _ '"' h3 rfl
      · intro h''
        exact natDigits_ne_quote _ '"' h'' rfl

theorem kindStr_ne_quote (k : UKind) : '"' ∉ kindStr k := by
  cases k <;> decide

/-- Quote-escaping is the identity on quote-free text. -/
theorem escQuote_of_no_quote {s : Str} (h : '"' ∉ s) : escQuote s = s := by
  induction s with
  | nil => rfl
  | cons c cs ih =>
    rw [List.mem_cons, not_or] at h
    have hc : (c == '"') = false := beq_eq_false_iff_ne.mpr (Ne.symm h.1)
    show (if c == '"' then ['"', '"'] else [c]) ++ escQuote cs = c :: cs
    rw [hc, ih h.2]
    simp

/-- C7 (counterexample): the report emits a description containing a
quote character verbatim inside its wrapping quotes — the embedded quote
is not doubled anywhere in the generated report. -/
theorem quote_not_doubled_counterexample :
    (strContains (generateReport rQ) "\"He said \"hi\"\",".data = true) ∧
    (strContains (generateReport rQ) "He said \"\"hi\"\"".data = false) := by
  constructor <;> decide

/-- C7 (amended): every field is wrapped in quotes with its value emitted
verbatim; consequently the emitted row coincides with the spec's
quote-escaped row exactly when the text fields contain no quote
character (fields containing only the delimiter are covered by the
wrapping; embedded quotes are never doubled). -/
theorem fields_wrapped_amended (t : Transaction)
    (hd : '"' ∉ t.date) (hs : '"' ∉ t.description) (hc : '"' ∉ t.category) :
    userOnlyRow t =
      specField t.date ++ ",".data ++ specField t.description ++ ",".data ++
        specField t.category ++ ",".data ++ specField (toFixed2 t.amount) ++ ",".data ++
        specField (kindStr t.kind) ++ "\n".data := by
  have h1 := escQuote_of_no_quote hd
  have h2 := escQuote_of_no_quote hs
  have h3 := escQuote_of_no_quote hc
  have h4 := escQuote_of_no_quote (toFixed2_ne_quote t.amount)
  have h5 := escQuote_of_no_quote (kindStr_ne_quote t.kind)
  simp only [specField, h1, h2, h3, h4, h5, userOnlyRow]
  simp [qc, List.append_assoc]

/-- Witness for C7 (amended) at a quote-free transaction whose
description contains the delimiter. -/
theorem fields_wrapped_amended_witness :
    userOnlyRow tW =
      specField "2024-01-05".data ++ ",".data ++ specField "a,b".data ++ ",".data ++
        specField "food".data ++ ",".data ++ specField (toFixed2 ⟨525, 2⟩) ++ ",".data ++
        specField (kindStr .expense) ++ "\n".data :=
  fields_wrapped_amended tW (by decide) (by decide) (by decide)

end BudgetWise
